import Mathlib

/-!
Shallow embedding of the hash-sharded buffer cache in kernel/bio.c.

The cache state is modelled as an index-based arena: a list of slots
(`struct buf`) together with one list of slot indices per hash bucket,
standing for the circular doubly-linked bucket lists (traversal order from
the sentinel's next pointer is list order; insert-at-head is cons; pointer
unlink is erase).  Unsigned 32-bit fields (`refcnt`, `timestamp`) are
naturals reduced mod 2^32 exactly where the C code can wrap.  Lock calls
and disk transfers are recorded as an event trace; `panic` is the error
branch of `Except`.  A sleep lock records its holding thread, so
`holdingsleep` is the check that the holder is the calling thread.
-/

namespace Bio

/-- Number of hash buckets (NBUCKETS in kernel/bio.c). -/
def NBUCKETS : Nat := 13

/-- Modulus of 32-bit unsigned arithmetic, for the uint fields of struct buf. -/
def U32 : Nat := 4294967296

/-- One cache slot (struct buf): device id, block number, valid flag,
reference count, last-release timestamp, sleep-lock holder, data content. -/
structure Buf where
  dev : Nat
  blockno : Nat
  valid : Bool
  refcnt : Nat
  timestamp : Nat
  lock : Option Nat
  data : Nat
deriving DecidableEq, Inhabited

/-- The cache (struct bcache): the slot arena and the bucket lists of slot
indices. -/
structure BCache where
  bufs : List Buf
  buckets : List (List Nat)
deriving DecidableEq, Inhabited

/-- Observable events: bucket-lock and allocation-lock acquire/release,
sleep-lock acquire/release, and a disk transfer (virtio_disk_rw) with its
write flag. -/
inductive Ev where
  | acqB : Nat → Ev
  | relB : Nat → Ev
  | acqAlloc : Ev
  | relAlloc : Ev
  | acqSleep : Nat → Ev
  | relSleep : Nat → Ev
  | diskRW : Nat → Bool → Ev
deriving DecidableEq

/-- The hash function of kernel/bio.c: (dev + blockno) % NBUCKETS. -/
def bhash (dev blockno : Nat) : Nat := (dev + blockno) % NBUCKETS

/-- Slot lookup in the arena. -/
def getBuf (st : BCache) (b : Nat) : Buf := st.bufs.getD b default

/-- Bucket-list lookup. -/
def getBucket (st : BCache) (i : Nat) : List Nat := st.buckets.getD i []

/-- The bucket scan for a slot matching (dev, blockno): the for loops at
bio.c:83 and bio.c:101. -/
def scanHit (bufs : List Buf) (dev blockno : Nat) : List Nat → Option Nat
  | [] => none
  | b :: rest =>
    let bf := bufs.getD b default
    if bf.dev = dev ∧ bf.blockno = blockno then some b
    else scanHit bufs dev blockno rest

/-- Phase 1 of bget (bio.c:81-92): lock the target bucket and scan it; on a
hit increment the reference count, release the bucket lock, acquire the
slot's sleep lock and return the slot; on a miss release the bucket lock. -/
def bgetFast (st : BCache) (dev blockno tid : Nat) :
    Option Nat × BCache × List Ev :=
  let id := bhash dev blockno
  match scanHit st.bufs dev blockno (getBucket st id) with
  | some b =>
    let bf := getBuf st b
    let bf2 := { bf with refcnt := (bf.refcnt + 1) % U32, lock := some tid }
    (some b, { st with bufs := st.bufs.set b bf2 },
     [Ev.acqB id, Ev.relB id, Ev.acqSleep b])
  | none => (none, st, [Ev.acqB id, Ev.relB id])

/-- The victim scan inside one bucket (bio.c:137-144): remember the slot
with refcnt == 0 and the smallest timestamp seen so far, together with the
bucket it was found in. -/
def scanV (bufs : List Buf) (i : Nat) :
    List Nat → Option (Nat × Nat) → Nat → Option (Nat × Nat) × Nat
  | [], victim, minTick => (victim, minTick)
  | b :: rest, victim, minTick =>
    let bf := bufs.getD b default
    if bf.refcnt = 0 ∧ bf.timestamp < minTick then
      scanV bufs i rest (some (b, i)) bf.timestamp
    else
      scanV bufs i rest victim minTick

/-- The found label of bget (bio.c:166-175): stamp the victim with the new
identity, valid = 0, refcnt = 1, release the target bucket lock and the
allocation lock, acquire the victim's sleep lock and return it. -/
def bgetFound (st : BCache) (dev blockno id tid v : Nat) (tr : List Ev) :
    Except String Nat × BCache × List Ev :=
  let bf := getBuf st v
  let bf2 :=
    { bf with dev := dev, blockno := blockno, valid := false, refcnt := 1,
              lock := some tid }
  (Except.ok v, { st with bufs := st.bufs.set v bf2 },
   tr ++ [Ev.relB id, Ev.relAlloc, Ev.acqSleep v])

/-- The victim search loop of bget (bio.c:132-164): walk the bucket indices
in order, skipping the target bucket id; lock and scan each bucket; if the
running best victim lies in the bucket just scanned, unlink it from that
bucket, release that bucket's lock, relink it at the head of the target
bucket and jump to found.  When the buckets are exhausted with no victim
taken, panic with "bget: no buffers". -/
def victimLoop (st : BCache) (dev blockno id tid : Nat) :
    List Nat → Option (Nat × Nat) → Nat → List Ev →
    Except String Nat × BCache × List Ev
  | [], _, _, tr => (Except.error "bget: no buffers", st, tr)
  | i :: rest, victim, minTick, tr =>
    if i = id then victimLoop st dev blockno id tid rest victim minTick tr
    else
      match scanV st.bufs i (getBucket st i) victim minTick with
      | (some (v, vb), minTick2) =>
        if vb = i then
          let bks := (st.buckets.set i ((getBucket st i).erase v)).set id
            (v :: getBucket st id)
          bgetFound { st with buckets := bks } dev blockno id tid v
            (tr ++ [Ev.acqB i, Ev.relB i])
        else
          victimLoop st dev blockno id tid rest (some (v, vb)) minTick2
            (tr ++ [Ev.acqB i, Ev.relB i])
      | (none, minTick2) =>
        victimLoop st dev blockno id tid rest none minTick2
          (tr ++ [Ev.acqB i, Ev.relB i])

/-- Phase 2 of bget (bio.c:96-175): acquire the allocation lock, reacquire
the target bucket lock, re-scan the target bucket; on a hit behave as the
fast path (also releasing the allocation lock); otherwise run the victim
search with min_tick = 0xffffffff. -/
def bgetSlow (st : BCache) (dev blockno tid : Nat) :
    Except String Nat × BCache × List Ev :=
  let id := bhash dev blockno
  match scanHit st.bufs dev blockno (getBucket st id) with
  | some b =>
    let bf := getBuf st b
    let bf2 := { bf with refcnt := (bf.refcnt + 1) % U32, lock := some tid }
    (Except.ok b, { st with bufs := st.bufs.set b bf2 },
     [Ev.acqAlloc, Ev.acqB id, Ev.relB id, Ev.relAlloc, Ev.acqSleep b])
  | none =>
    victimLoop st dev blockno id tid (List.range NBUCKETS) none 4294967295
      [Ev.acqAlloc, Ev.acqB id]

/-- bget (bio.c:74-176): fast path, then the slow path under the allocation
lock. -/
def bget (st : BCache) (dev blockno tid : Nat) :
    Except String Nat × BCache × List Ev :=
  match bgetFast st dev blockno tid with
  | (some b, st2, tr) => (Except.ok b, st2, tr)
  | (none, st2, tr) =>
    match bgetSlow st2 dev blockno tid with
    | (r, st3, tr2) => (r, st3, tr ++ tr2)

/-- bread (bio.c:179-190): bget, then if the slot is not valid read it from
the disk and set valid. -/
def bread (disk : Nat → Nat → Nat) (st : BCache) (dev blockno tid : Nat) :
    Except String Nat × BCache × List Ev :=
  match bget st dev blockno tid with
  | (Except.ok b, st2, tr) =>
    let bf := getBuf st2 b
    if bf.valid = false then
      let bf2 := { bf with data := disk dev blockno, valid := true }
      (Except.ok b, { st2 with bufs := st2.bufs.set b bf2 },
       tr ++ [Ev.diskRW b false])
    else
      (Except.ok b, st2, tr)
  | (Except.error e, st2, tr) => (Except.error e, st2, tr)

/-- bwrite (bio.c:193-199): panic unless the calling thread holds the
slot's sleep lock; otherwise write the slot to disk. -/
def bwrite (st : BCache) (b tid : Nat) :
    Except String Unit × BCache × List Ev :=
  if (getBuf st b).lock = some tid then
    (Except.ok (), st, [Ev.diskRW b true])
  else
    (Except.error "bwrite", st, [])

/-- brelse (bio.c:203-219): panic unless the calling thread holds the
slot's sleep lock; release the sleep lock, lock the bucket recomputed from
the slot's current identity, decrement the reference count (wrapping uint
decrement), stamp the timestamp with ticks exactly when the count reaches
zero, and release the bucket lock. -/
def brelse (st : BCache) (b tid ticks : Nat) :
    Except String Unit × BCache × List Ev :=
  if (getBuf st b).lock = some tid then
    let bf := getBuf st b
    let id := bhash bf.dev bf.blockno
    let r2 := (bf.refcnt + U32 - 1) % U32
    let bf3 :=
      if r2 = 0 then { bf with lock := none, refcnt := r2, timestamp := ticks }
      else { bf with lock := none, refcnt := r2 }
    (Except.ok (), { st with bufs := st.bufs.set b bf3 },
     [Ev.relSleep b, Ev.acqB id, Ev.relB id])
  else
    (Except.error "brelse", st, [])

/-- bpin (bio.c:221-227): increment the reference count under the bucket
lock. -/
def bpin (st : BCache) (b : Nat) : BCache × List Ev :=
  let bf := getBuf st b
  let id := bhash bf.dev bf.blockno
  let bf2 := { bf with refcnt := (bf.refcnt + 1) % U32 }
  ({ st with bufs := st.bufs.set b bf2 }, [Ev.acqB id, Ev.relB id])

/-- bunpin (bio.c:229-235): decrement the reference count under the bucket
lock, unconditionally, with no positivity check and no panic. -/
def bunpin (st : BCache) (b : Nat) : BCache × List Ev :=
  let bf := getBuf st b
  let id := bhash bf.dev bf.blockno
  let bf2 := { bf with refcnt := (bf.refcnt + U32 - 1) % U32 }
  ({ st with bufs := st.bufs.set b bf2 }, [Ev.acqB id, Ev.relB id])

/-- The stamping a victim slot receives at the found label: new identity,
valid = false, refcnt = 1, content lock held by tid. -/
def evictBuf (bf : Buf) (dev blockno tid : Nat) : Buf :=
  { bf with dev := dev, blockno := blockno, valid := false, refcnt := 1,
            lock := some tid }

/-- The state transform performed by a successful eviction (bio.c:146-171):
the victim v is unlinked from bucket i, relinked at the head of the target
bucket id, and stamped with the new identity, valid = false, refcnt = 1 and
the caller tid holding the content lock. -/
def evictState (st : BCache) (dev blockno id tid v i : Nat) : BCache :=
  { bufs := st.bufs.set v (evictBuf (st.bufs.getD v default) dev blockno tid),
    buckets := (st.buckets.set i ((getBucket st i).erase v)).set id
      (v :: getBucket st id) }

/-- A slot with no holder of the content lock and zeroed data, used to build
concrete cache states. -/
def mkBuf (dev blockno : Nat) (valid : Bool) (refcnt timestamp : Nat) : Buf :=
  { dev := dev, blockno := blockno, valid := valid, refcnt := refcnt,
    timestamp := timestamp, lock := none, data := 0 }

/-- A cache with two reference-count-0 slots: slot 0 in bucket 1 with
timestamp 10, slot 1 in bucket 2 with timestamp 3. -/
def stA : BCache :=
  { bufs := [mkBuf 1 0 true 0 10, mkBuf 2 0 true 0 3],
    buckets := [[], [0], [1], [], [], [], [], [], [], [], [], [], []] }

/-- A cache whose only slot has reference count 0 and sits in bucket 0. -/
def stB : BCache :=
  { bufs := [mkBuf 0 0 true 0 5],
    buckets := [[0], [], [], [], [], [], [], [], [], [], [], [], []] }

/-- A cache whose two slots both have reference count 0 and both sit in
bucket 0. -/
def stC : BCache :=
  { bufs := [mkBuf 0 0 true 0 1, mkBuf 0 13 true 0 2],
    buckets := [[0, 1], [], [], [], [], [], [], [], [], [], [], [], []] }

/-- A cache whose only slot caches block (0, 0), valid, with one reference
outstanding. -/
def stH : BCache :=
  { bufs := [mkBuf 0 0 true 1 0],
    buckets := [[0], [], [], [], [], [], [], [], [], [], [], [], []] }

/-- A slot caching block (1, 2), valid, with two references outstanding and
thread 3 holding the content lock. -/
def lockedBuf : Buf :=
  { dev := 1, blockno := 2, valid := true, refcnt := 2, timestamp := 0,
    lock := some 3, data := 0 }

/-- A cache whose only slot is lockedBuf, resident in bucket 3 = bhash 1 2. -/
def stL : BCache :=
  { bufs := [lockedBuf],
    buckets := [[], [], [], [0], [], [], [], [], [], [], [], [], []] }

/-- List getD after set at the same in-range index yields the new element. -/
theorem getD_set_self {α : Type} (l : List α) (i : Nat) (x d : α)
    (h : i < l.length) : (l.set i x).getD i d = x := by
  induction l generalizing i with
  | nil => simp at h
  | cons a t ih =>
    cases i with
    | zero => rfl
    | succ n =>
      simp only [List.set_cons_succ, List.getD_cons_succ]
      exact ih n (by simpa using h)

/-- List getD after set at a different index is unchanged. -/
theorem getD_set_ne {α : Type} (l : List α) (i j : Nat) (x d : α)
    (h : i ≠ j) : (l.set i x).getD j d = l.getD j d := by
  induction l generalizing i j with
  | nil => simp [List.set]
  | cons a t ih =>
    cases i with
    | zero =>
      cases j with
      | zero => exact absurd rfl h
      | succ m => rfl
    | succ n =>
      cases j with
      | zero => rfl
      | succ m =>
        simp only [List.set_cons_succ, List.getD_cons_succ]
        exact ih n m (fun hc => h (by rw [hc]))

/-- The inner victim scan either keeps the candidate it was given or returns
a slot of the scanned bucket list, tagged with that bucket's index, whose
reference count is 0. -/
theorem scanV_spec (bufs : List Buf) (i : Nat) :
    ∀ (l : List Nat) (victim : Option (Nat × Nat)) (minTick : Nat),
    (scanV bufs i l victim minTick).1 = victim ∨
    ∃ v, (scanV bufs i l victim minTick).1 = some (v, i) ∧ v ∈ l ∧
      (bufs.getD v default).refcnt = 0 := by
  intro l
  induction l with
  | nil => intro victim minTick; exact Or.inl rfl
  | cons b rest ih =>
    intro victim minTick
    by_cases hc : (bufs.getD b default).refcnt = 0 ∧
        (bufs.getD b default).timestamp < minTick
    · have he : scanV bufs i (b :: rest) victim minTick =
          scanV bufs i rest (some (b, i)) (bufs.getD b default).timestamp := by
        simp only [scanV]
        rw [if_pos hc]
      rw [he]
      rcases ih (some (b, i)) (bufs.getD b default).timestamp with
        h | ⟨v, hv, hm, hr⟩
      · exact Or.inr ⟨b, h, List.mem_cons_self b rest, hc.1⟩
      · exact Or.inr ⟨v, hv, List.mem_cons_of_mem b hm, hr⟩
    · have he : scanV bufs i (b :: rest) victim minTick =
          scanV bufs i rest victim minTick := by
        simp only [scanV]
        rw [if_neg hc]
      rw [he]
      rcases ih victim minTick with h | ⟨v, hv, hm, hr⟩
      · exact Or.inl h
      · exact Or.inr ⟨v, hv, List.mem_cons_of_mem b hm, hr⟩

/-- Any successful run of the victim search loop returns a victim whose
reference count is 0 in the input state, found in some scanned bucket other
than the target, and produces exactly the eviction state transform, with a
trace ending in the release of the target bucket lock, the release of the
allocation lock, and the acquisition of the victim's content lock. -/
theorem victimLoop_ok_spec (st : BCache) (dev blockno id tid : Nat) :
    ∀ (l : List Nat) (victim : Option (Nat × Nat)) (minTick : Nat)
      (tr : List Ev) (v : Nat) (st2 : BCache) (tr2 : List Ev),
    (∀ w j, victim = some (w, j) →
      j ∉ l ∧ (st.bufs.getD w default).refcnt = 0) →
    victimLoop st dev blockno id tid l victim minTick tr =
      (Except.ok v, st2, tr2) →
    (st.bufs.getD v default).refcnt = 0 ∧
    ∃ i, i ∈ l ∧ i ≠ id ∧ v ∈ getBucket st i ∧
      st2 = evictState st dev blockno id tid v i ∧
      ∃ tr3, tr2 = tr3 ++ [Ev.relB id, Ev.relAlloc, Ev.acqSleep v] := by
  intro l
  induction l with
  | nil =>
    intro victim minTick tr v st2 tr2 hinv heq
    simp [victimLoop] at heq
  | cons i rest ih =>
    intro victim minTick tr v st2 tr2 hinv heq
    simp only [victimLoop] at heq
    split at heq
    · rename_i hii
      obtain ⟨hr0, i2, hi2, hine, hmem, hst, htr⟩ :=
        ih victim minTick tr v st2 tr2
          (fun w j hw => ⟨fun hj => (hinv w j hw).1 (List.mem_cons_of_mem i hj),
            (hinv w j hw).2⟩) heq
      exact ⟨hr0, i2, List.mem_cons_of_mem i hi2, hine, hmem, hst, htr⟩
    · rename_i hii
      split at heq
      · rename_i v0 vb m2 hsv
        split at heq
        · rename_i hvb
          simp only [bgetFound, Prod.mk.injEq, Except.ok.injEq] at heq
          obtain ⟨hv0, hst, htr⟩ := heq
          rcases scanV_spec st.bufs i (getBucket st i) victim minTick with
            hkeep | ⟨v1, hv1, hm1, hr1⟩
          · rw [hsv] at hkeep
            simp only at hkeep
            obtain ⟨hnin, _⟩ := hinv v0 vb hkeep.symm
            rw [hvb] at hnin
            exact absurd (List.mem_cons_self i rest) hnin
          · rw [hsv] at hv1
            simp only [Option.some.injEq, Prod.mk.injEq] at hv1
            obtain ⟨hva, _⟩ := hv1
            subst hva
            subst hv0
            refine ⟨hr1, i, List.mem_cons_self i rest, hii, hm1, ?_,
              tr ++ [Ev.acqB i, Ev.relB i], htr.symm⟩
            rw [← hst]
            simp only [evictState, evictBuf, getBuf]
        · rename_i hvb
          have hinv2 : ∀ w j, (some (v0, vb) : Option (Nat × Nat)) = some (w, j) →
              j ∉ rest ∧ (st.bufs.getD w default).refcnt = 0 := by
            intro w j hw
            simp only [Option.some.injEq, Prod.mk.injEq] at hw
            obtain ⟨hw1, hw2⟩ := hw
            subst hw1
            subst hw2
            rcases scanV_spec st.bufs i (getBucket st i) victim minTick with
              hkeep | ⟨v1, hv1, _, _⟩
            · rw [hsv] at hkeep
              simp only at hkeep
              obtain ⟨hnin, hrc⟩ := hinv v0 vb hkeep.symm
              exact ⟨fun hj => hnin (List.mem_cons_of_mem i hj), hrc⟩
            · rw [hsv] at hv1
              simp only [Option.some.injEq, Prod.mk.injEq] at hv1
              exact absurd hv1.2 hvb
          obtain ⟨hr0, i2, hi2, hine, hmem, hst, htr⟩ :=
            ih (some (v0, vb)) m2 (tr ++ [Ev.acqB i, Ev.relB i]) v st2 tr2
              hinv2 heq
          exact ⟨hr0, i2, List.mem_cons_of_mem i hi2, hine, hmem, hst, htr⟩
      · rename_i m2 hsv
        obtain ⟨hr0, i2, hi2, hine, hmem, hst, htr⟩ :=
          ih none m2 (tr ++ [Ev.acqB i, Ev.relB i]) v st2 tr2
            (fun w j hw => nomatch hw) heq
        exact ⟨hr0, i2, List.mem_cons_of_mem i hi2, hine, hmem, hst, htr⟩

/-- C1: counterexample.  On the cache stA a miss of get(0, 0) (target bucket
0) selects slot 0, whose last-release timestamp is 10, although slot 1 is a
reference-count-0 slot of the pool (resident in bucket 2) with the strictly
smaller timestamp 3: the victim search takes the best slot of the first
non-target bucket that contains any reference-count-0 slot and never
compares it against later buckets, so the chosen victim need not carry the
numerically smallest timestamp in the pool. -/
theorem c1_victim_not_globally_oldest :
    (bget stA 0 0 7).1 = Except.ok 0 ∧
    (getBuf stA 0).refcnt = 0 ∧ (getBuf stA 0).timestamp = 10 ∧
    (getBuf stA 1).refcnt = 0 ∧ (getBuf stA 1).timestamp = 3 ∧
    1 ∈ getBucket stA 2 := by
  exact ⟨rfl, rfl, rfl, rfl, rfl, by decide⟩

/-- C2: counterexample.  On the cache stB the only reference-count-0 slot of
the whole pool, slot 0, resides in the target bucket (bhash 0 13 = 0), and
get(0, 13) aborts with "bget: no buffers" instead of selecting it: the
victim search skips the target bucket, so home-bucket slots are never
eviction candidates. -/
theorem c2_home_bucket_slot_never_victim :
    (bget stB 0 13 7).1 = Except.error "bget: no buffers" ∧
    bhash 0 13 = 0 ∧ 0 ∈ getBucket stB 0 ∧ (getBuf stB 0).refcnt = 0 := by
  exact ⟨rfl, rfl, by decide, rfl⟩

/-- C3: counterexample to the only-if direction.  On the cache stC both
slots have reference count 0 (both resident in bucket 0 = bhash 1 12), yet
get(1, 12) aborts with "bget: no buffers": a miss can abort even though
reference-count-0 slots exist in the pool, because the victim search never
looks inside the target bucket. -/
theorem c3_abort_despite_free_slot :
    (bget stC 1 12 7).1 = Except.error "bget: no buffers" ∧
    bhash 1 12 = 0 ∧ 0 ∈ getBucket stC 0 ∧ 1 ∈ getBucket stC 0 ∧
    (getBuf stC 0).refcnt = 0 ∧ (getBuf stC 1).refcnt = 0 := by
  exact ⟨rfl, rfl, by decide, by decide, rfl, rfl⟩

/-- C4: a slot with reference count greater than 0 is never selected as the
eviction victim: whenever get misses the target-bucket scan and returns a
slot through the eviction path, the returned slot's reference count in the
state the victim search inspected is 0. -/
theorem c4_victim_refcnt_zero (st : BCache) (dev blockno tid b : Nat)
    (st2 : BCache) (tr : List Ev)
    (hmiss : scanHit st.bufs dev blockno (getBucket st (bhash dev blockno)) =
      none)
    (h : bget st dev blockno tid = (Except.ok b, st2, tr)) :
    (getBuf st b).refcnt = 0 := by
  simp only [bget, bgetFast, bgetSlow, hmiss] at h
  rcases hvl : victimLoop st dev blockno (bhash dev blockno) tid
      (List.range NBUCKETS) none 4294967295
      [Ev.acqAlloc, Ev.acqB (bhash dev blockno)] with ⟨r, st3, tr2⟩
  rw [hvl] at h
  simp only [Prod.mk.injEq] at h
  obtain ⟨h1, h2, h3⟩ := h
  rw [h1] at hvl
  exact (victimLoop_ok_spec st dev blockno (bhash dev blockno) tid
    (List.range NBUCKETS) none 4294967295
    [Ev.acqAlloc, Ev.acqB (bhash dev blockno)] b st3 tr2
    (fun w j hw => nomatch hw) hvl).1

/-- C4 witness: on the concrete cache stA, get(0, 0) evicts slot 0, whose
reference count is 0. -/
theorem c4_witness : (getBuf stA 0).refcnt = 0 :=
  c4_victim_refcnt_zero stA 0 0 7 0 (bget stA 0 0 7).2.1 (bget stA 0 0 7).2.2
    (by decide) rfl

/-- C5: if the re-scan of the target bucket performed under the allocation
lock finds a slot matching (dev, blockno), the slow path of get behaves
exactly as a fast-path hit: it returns that slot with its reference count
incremented and the caller holding its content lock, reaching the same state
the fast path would produce, releases the bucket lock then the allocation
lock, then acquires the content lock, and performs no eviction and no
relocation (the bucket lists are unchanged). -/
theorem c5_rescan_hit (st : BCache) (dev blockno tid b : Nat)
    (h : scanHit st.bufs dev blockno (getBucket st (bhash dev blockno)) =
      some b) :
    bgetSlow st dev blockno tid =
      (Except.ok b, (bgetFast st dev blockno tid).2.1,
       [Ev.acqAlloc, Ev.acqB (bhash dev blockno), Ev.relB (bhash dev blockno), Ev.relAlloc, Ev.acqSleep b]) ∧
    (bgetSlow st dev blockno tid).2.1.bufs = st.bufs.set b { getBuf st b with refcnt := ((getBuf st b).refcnt + 1) % U32, lock := some tid } ∧
    (bgetSlow st dev blockno tid).2.1.buckets = st.buckets := by
  simp only [bgetSlow, bgetFast, h]
  exact ⟨trivial, trivial, trivial⟩

/-- C5 witness: on the concrete cache stH, the slow-path re-scan for (0, 0)
hits slot 0 and relocates nothing. -/
theorem c5_witness : (bgetSlow stH 0 0 3).2.1.buckets = stH.buckets :=
  (c5_rescan_hit stH 0 0 3 0 (by decide)).2.2

/-- C6: every eviction performed by get unlinks the chosen victim from the
bucket list it occupies, relinks it at the head of the target bucket's list,
stamps it with the new device id and block number with valid = false and
reference count 1, and returns it with the content lock held (the trace ends
with the acquisition of the victim's content lock). -/
theorem c6_eviction_relocates (st : BCache) (dev blockno tid b : Nat)
    (st2 : BCache) (tr : List Ev)
    (hmiss : scanHit st.bufs dev blockno (getBucket st (bhash dev blockno)) =
      none)
    (h : bget st dev blockno tid = (Except.ok b, st2, tr)) :
    ∃ i, i ≠ bhash dev blockno ∧ b ∈ getBucket st i ∧
      st2 = evictState st dev blockno (bhash dev blockno) tid b i ∧
      ∃ tr3, tr = tr3 ++ [Ev.relB (bhash dev blockno), Ev.relAlloc, Ev.acqSleep b] := by
  simp only [bget, bgetFast, bgetSlow, hmiss] at h
  rcases hvl : victimLoop st dev blockno (bhash dev blockno) tid
      (List.range NBUCKETS) none 4294967295
      [Ev.acqAlloc, Ev.acqB (bhash dev blockno)] with ⟨r, st3, tr2⟩
  rw [hvl] at h
  simp only [Prod.mk.injEq] at h
  obtain ⟨h1, h2, h3⟩ := h
  rw [h1] at hvl
  obtain ⟨hr0, i, hi2, hine, hmem, hst, tr3, htr⟩ :=
    victimLoop_ok_spec st dev blockno (bhash dev blockno) tid
      (List.range NBUCKETS) none 4294967295
      [Ev.acqAlloc, Ev.acqB (bhash dev blockno)] b st3 tr2
      (fun w j hw => nomatch hw) hvl
  refine ⟨i, hine, hmem, by rw [← h2, hst], ?_⟩
  refine ⟨[Ev.acqB (bhash dev blockno), Ev.relB (bhash dev blockno)] ++ tr3, ?_⟩
  rw [← h3, htr, List.append_assoc]

/-- C6 witness: on the concrete cache stA, get(0, 0) evicts slot 0 from
bucket 1 into bucket 0 with the full relocation and stamping transform. -/
theorem c6_witness :
    ∃ i, i ≠ bhash 0 0 ∧ 0 ∈ getBucket stA i ∧
      (bget stA 0 0 7).2.1 = evictState stA 0 0 (bhash 0 0) 7 0 i ∧
      ∃ tr3, (bget stA 0 0 7).2.2 = tr3 ++ [Ev.relB (bhash 0 0), Ev.relAlloc, Ev.acqSleep 0] :=
  c6_eviction_relocates stA 0 0 7 0 (bget stA 0 0 7).2.1 (bget stA 0 0 7).2.2
    (by decide) rfl

/-- C7: read performs get and loads from the backing store if and only if
the returned slot's valid flag is false, then sets valid to true; the
returned slot is always valid afterwards, and a read that hits a resident
slot whose valid flag is already true produces a trace of lock events only,
with no disk transfer. -/
theorem c7_read_loads_iff_invalid (disk : Nat → Nat → Nat) (st : BCache)
    (dev blockno tid b : Nat) (st1 : BCache) (tr1 : List Ev)
    (h : bget st dev blockno tid = (Except.ok b, st1, tr1))
    (hb : b < st1.bufs.length) :
    (getBuf (bread disk st dev blockno tid).2.1 b).valid = true ∧
    ((getBuf st1 b).valid = false →
      (bread disk st dev blockno tid).1 = Except.ok b ∧
      (bread disk st dev blockno tid).2.1.bufs = st1.bufs.set b { getBuf st1 b with data := disk dev blockno, valid := true } ∧
      (bread disk st dev blockno tid).2.2 = tr1 ++ [Ev.diskRW b false]) ∧
    ((getBuf st1 b).valid = true →
      bread disk st dev blockno tid = (Except.ok b, st1, tr1)) ∧
    (∀ st0 : BCache, b < st0.bufs.length →
      scanHit st0.bufs dev blockno (getBucket st0 (bhash dev blockno)) = some b →
      (getBuf st0 b).valid = true →
      (bread disk st0 dev blockno tid).2.2 = [Ev.acqB (bhash dev blockno), Ev.relB (bhash dev blockno), Ev.acqSleep b]) := by
  have hq : ∀ st0 : BCache, b < st0.bufs.length →
      scanHit st0.bufs dev blockno (getBucket st0 (bhash dev blockno)) = some b →
      (getBuf st0 b).valid = true →
      (bread disk st0 dev blockno tid).2.2 = [Ev.acqB (bhash dev blockno), Ev.relB (bhash dev blockno), Ev.acqSleep b] := by
    intro st0 hb0 hscan hval
    have hv2 : (getBuf (bgetFast st0 dev blockno tid).2.1 b).valid = true := by
      simp only [bgetFast, hscan, getBuf]
      rw [getD_set_self _ _ _ _ hb0]
      exact hval
    simp only [bgetFast, hscan, getBuf] at hv2
    simp only [bread, bget, bgetFast, hscan, getBuf, hv2]
    rw [if_neg (by decide)]
  cases hv : (getBuf st1 b).valid with
  | false =>
    have hbr : bread disk st dev blockno tid =
        (Except.ok b, { st1 with bufs := st1.bufs.set b { getBuf st1 b with data := disk dev blockno, valid := true } }, tr1 ++ [Ev.diskRW b false]) := by
      simp only [bread, h, hv]
      rw [if_pos trivial]
    refine ⟨?_, fun _ => ⟨by rw [hbr], by rw [hbr], by rw [hbr]⟩,
      fun hc => absurd hc (by decide), hq⟩
    rw [hbr]
    simp only [getBuf]
    rw [getD_set_self _ _ _ _ hb]
  | true =>
    have hbr : bread disk st dev blockno tid = (Except.ok b, st1, tr1) := by
      simp only [bread, h, hv]
      rw [if_neg (by decide)]
    refine ⟨?_, fun hc => absurd hc (by decide), fun _ => hbr, hq⟩
    rw [hbr]
    exact hv

/-- C7 witness: reading the already-valid resident block (0, 0) of stH
returns a valid slot (and, by the theorem, performs no disk transfer). -/
theorem c7_witness :
    (getBuf (bread (fun _ _ => 17) stH 0 0 3).2.1 0).valid = true :=
  (c7_read_loads_iff_invalid (fun _ _ => 17) stH 0 0 3 0 (bget stH 0 0 3).2.1
    (bget stH 0 0 3).2.2 rfl (by decide)).1

/-- C8: release on a slot whose content lock the caller holds releases the
content lock, acquires and releases the bucket lock recomputed from the
slot's present identity, decrements the reference count by one, stamps the
last-release timestamp with the tick value exactly when the count reaches
zero, and leaves every bucket list unchanged. -/
theorem c8_release_decrements (st : BCache) (b tid ticks : Nat)
    (hl : (getBuf st b).lock = some tid)
    (hpos : 0 < (getBuf st b).refcnt) (hlt : (getBuf st b).refcnt < U32) :
    (brelse st b tid ticks).1 = Except.ok () ∧
    (brelse st b tid ticks).2.1.buckets = st.buckets ∧
    (brelse st b tid ticks).2.1.bufs = st.bufs.set b { getBuf st b with lock := none, refcnt := (getBuf st b).refcnt - 1, timestamp := if (getBuf st b).refcnt - 1 = 0 then ticks else (getBuf st b).timestamp } ∧
    (brelse st b tid ticks).2.2 = [Ev.relSleep b, Ev.acqB (bhash (getBuf st b).dev (getBuf st b).blockno), Ev.relB (bhash (getBuf st b).dev (getBuf st b).blockno)] := by
  have hr2 : ((getBuf st b).refcnt + U32 - 1) % U32 = (getBuf st b).refcnt - 1 := by
    unfold U32 at hlt ⊢
    omega
  simp only [brelse, if_pos hl, hr2]
  refine ⟨trivial, trivial, ?_, trivial⟩
  by_cases h0 : (getBuf st b).refcnt - 1 = 0
  · rw [if_pos h0, if_pos h0]
  · rw [if_neg h0, if_neg h0]

/-- C8 witness: thread 3 releasing slot 0 of stL (reference count 2, lock
held by 3) succeeds. -/
theorem c8_witness : (brelse stL 0 3 99).1 = Except.ok () :=
  (c8_release_decrements stL 0 3 99 (by decide) (by decide) (by decide)).1

/-- C9: write or release called by a thread that does not hold the slot's
content lock aborts fatally and immediately: the state is unchanged and the
trace is empty, so no backing-store transfer and no metadata update happens,
and no error code is returned in place of the abort. -/
theorem c9_unheld_lock_aborts (st : BCache) (b tid ticks : Nat)
    (h : ¬ (getBuf st b).lock = some tid) :
    bwrite st b tid = (Except.error "bwrite", st, []) ∧
    brelse st b tid ticks = (Except.error "brelse", st, []) := by
  constructor
  · simp only [bwrite, if_neg h]
  · simp only [brelse, if_neg h]

/-- C9 witness: thread 5 does not hold the content lock of slot 0 of stH,
so bwrite aborts with no state change. -/
theorem c9_witness : bwrite stH 0 5 = (Except.error "bwrite", stH, []) :=
  (c9_unheld_lock_aborts stH 0 5 0 (by decide)).1

/-- C10: unpin decrements the slot's reference count under the bucket lock
unconditionally, with no positivity check and no abort (its result type has
no error case): on a slot whose count is already 0 the count wraps to
2^32 - 1; release, by contrast, is guarded by the content-lock-held check. -/
theorem c10_unpin_unconditional (st : BCache) (b : Nat)
    (hb : b < st.bufs.length) :
    (bunpin st b).1.bufs = st.bufs.set b { getBuf st b with refcnt := ((getBuf st b).refcnt + U32 - 1) % U32 } ∧
    (bunpin st b).1.buckets = st.buckets ∧
    (bunpin st b).2 = [Ev.acqB (bhash (getBuf st b).dev (getBuf st b).blockno), Ev.relB (bhash (getBuf st b).dev (getBuf st b).blockno)] ∧
    ((getBuf st b).refcnt = 0 → (getBuf (bunpin st b).1 b).refcnt = U32 - 1) ∧
    (∀ tid ticks, ¬ (getBuf st b).lock = some tid →
      (brelse st b tid ticks).1 = Except.error "brelse") := by
  refine ⟨rfl, rfl, rfl, ?_, ?_⟩
  · intro h0
    simp only [bunpin, getBuf]
    rw [getD_set_self _ _ _ _ hb]
    simp only [getBuf] at h0
    rw [h0]
    show (0 + U32 - 1) % U32 = U32 - 1
    unfold U32
    omega
  · intro tid ticks hnl
    simp only [brelse, if_neg hnl]

/-- C10 witness: unpinning slot 0 of stB, whose reference count is 0, wraps
the count to 2^32 - 1. -/
theorem c10_witness : (getBuf (bunpin stB 0).1 0).refcnt = U32 - 1 :=
  (c10_unpin_unconditional stB 0 (by decide)).2.2.2.1 rfl

end Bio
